import Mathlib

/-!
Verification development for the Live2D-style animation/physics/rendering
engine (parameter store, curve evaluator, motion system, physics system,
renderer part ordering, model parser).

Conventions of the shallow embedding:
* Python floats are modelled as exact rationals (`ℚ`) wherever the code only
  performs field operations; the physics module, whose constraint solver
  takes Euclidean norms (`numpy.linalg.norm`), is modelled over `ℝ` with
  `Real.sqrt`.
* Python dicts keyed by strings are modelled as association lists in
  insertion order; `dictSet` mirrors `d[k] = v` (replace in place, or append
  a new key at the end) and `List.lookup` mirrors `d.get(k)`.
* Fallible code (uncaught `KeyError` / `AttributeError`) is modelled with
  `Option`, `none` standing for an escaping exception.
-/

namespace AiVoice

/-- `d[k] = v` on an insertion-ordered dict: replace the first binding of `k`
in place, or append `(k, v)` if `k` is absent. -/
def dictSet {α : Type} (l : List (String × α)) (k : String) (v : α) :
    List (String × α) :=
  match l with
  | [] => [(k, v)]
  | (k', v') :: rest =>
      if k' = k then (k', v) :: rest else (k', v') :: dictSet rest k v

theorem lookup_dictSet_self {α : Type} (l : List (String × α)) (k : String)
    (v : α) : (dictSet l k v).lookup k = some v := by
  induction l with
  | nil => simp [dictSet, List.lookup]
  | cons hd tl ih =>
      obtain ⟨k', v'⟩ := hd
      by_cases h : k' = k
      · simp [dictSet, h, List.lookup]
      · have hb : (k == k') = false := beq_eq_false_iff_ne.mpr (Ne.symm h)
        simp [dictSet, h, List.lookup, hb, ih]

theorem lookup_dictSet_ne {α : Type} (l : List (String × α)) (k k' : String)
    (v : α) (h : k' ≠ k) : (dictSet l k v).lookup k' = l.lookup k' := by
  have hb : (k' == k) = false := beq_eq_false_iff_ne.mpr h
  induction l with
  | nil => simp [dictSet, List.lookup, hb]
  | cons hd tl ih =>
      obtain ⟨k0, v0⟩ := hd
      by_cases h0 : k0 = k
      · subst h0
        simp [dictSet, List.lookup, hb]
      · simp only [dictSet, if_neg h0, List.lookup, ih]

theorem dictSet_dictSet_self {α : Type} (l : List (String × α)) (k : String)
    (v w : α) : dictSet (dictSet l k v) k w = dictSet l k w := by
  induction l with
  | nil => simp [dictSet]
  | cons hd tl ih =>
      obtain ⟨k', v'⟩ := hd
      by_cases h : k' = k
      · simp [dictSet, h]
      · simp [dictSet, h, ih]

/-! ## Parameter Store (`src/parameter.py`) -/

/-- The value stored in `ParameterManager.parameter_definitions`:
`{"default": ..., "min": ..., "max": ...}`. -/
structure ParamDef (α : Type) where
  default : α
  min : α
  max : α
deriving DecidableEq

/-- `ParameterManager.__init__`: two dicts, parameter values and parameter
definitions. -/
structure ParameterManager (α : Type) where
  parameters : List (String × α)
  parameter_definitions : List (String × ParamDef α)
deriving DecidableEq

namespace ParameterManager

variable {α : Type} [LinearOrderedField α]

/-- A fresh `ParameterManager()`. -/
def init : ParameterManager α := ⟨[], []⟩

/-- `ParameterManager.register_parameter` (defaults at the call sites:
`default_value=0.0, min_value=-100.0, max_value=100.0`). -/
def register_parameter (pm : ParameterManager α) (param_id : String)
    (default_value min_value max_value : α) : ParameterManager α :=
  { parameters := dictSet pm.parameters param_id default_value,
    parameter_definitions :=
      dictSet pm.parameter_definitions param_id
        ⟨default_value, min_value, max_value⟩ }

/-- `ParameterManager.set_parameter`: auto-register unknown ids with the
default bounds, then clamp the value into `[min, max]` and store it. -/
def set_parameter (pm : ParameterManager α) (param_id : String) (value : α) :
    ParameterManager α :=
  let pm :=
    if (pm.parameter_definitions.lookup param_id).isNone then
      pm.register_parameter param_id 0 (-100) 100
    else pm
  let definition :=
    (pm.parameter_definitions.lookup param_id).getD ⟨0, -100, 100⟩
  let clamped_value := max definition.min (min definition.max value)
  { pm with parameters := dictSet pm.parameters param_id clamped_value }

/-- `ParameterManager.get_parameter`. -/
def get_parameter (pm : ParameterManager α) (param_id : String)
    (default : α) : α :=
  (pm.parameters.lookup param_id).getD default

/-- `ParameterManager.update_parameters`: iterate the dict in order and
`set_parameter` each binding. -/
def update_parameters (pm : ParameterManager α)
    (param_dict : List (String × α)) : ParameterManager α :=
  param_dict.foldl (fun acc kv => acc.set_parameter kv.1 kv.2) pm

end ParameterManager

/-! ### Claim C2 -/

/-- C2: after `set_parameter(id, v)`, `get_parameter(id)` returns
`clamp(v, min, max)` for the bounds registered for `id`; an unregistered id
is auto-registered with bounds `[-100, 100]` and default value `0`, so the
stored value is `clamp(v, -100, 100)`; and a repeated set of the same value
is idempotent (it leaves the whole manager state unchanged). -/
theorem C2_set_then_get_clamps (pm : ParameterManager ℚ) (pid : String)
    (v : ℚ) :
    (∀ d, pm.parameter_definitions.lookup pid = some d →
      (pm.set_parameter pid v).get_parameter pid 0 =
        max d.min (min d.max v)) ∧
    (pm.parameter_definitions.lookup pid = none →
      (pm.set_parameter pid v).get_parameter pid 0 =
        max (-100) (min 100 v) ∧
      (pm.set_parameter pid v).parameter_definitions.lookup pid =
        some ⟨0, -100, 100⟩) ∧
    (pm.set_parameter pid v).set_parameter pid v = pm.set_parameter pid v := by
  refine ⟨?_, ?_, ?_⟩
  · intro d hd
    simp [ParameterManager.set_parameter, ParameterManager.get_parameter,
      hd, lookup_dictSet_self]
  · intro hn
    simp [ParameterManager.set_parameter, ParameterManager.get_parameter,
      ParameterManager.register_parameter, hn, lookup_dictSet_self]
  · cases hd : pm.parameter_definitions.lookup pid with
    | some d =>
        simp [ParameterManager.set_parameter, hd, dictSet_dictSet_self]
    | none =>
        simp [ParameterManager.set_parameter,
          ParameterManager.register_parameter, hd, lookup_dictSet_self,
          dictSet_dictSet_self]

/-- Witness for C2 at a concrete input: a fresh manager, id `"ParamAngleX"`,
value `250`; the id is unregistered, so the stored value is
`clamp(250, -100, 100) = 100`. -/
theorem C2_set_then_get_clamps_witness :
    ((ParameterManager.init : ParameterManager ℚ).parameter_definitions.lookup
      "ParamAngleX" = none) ∧
    ((ParameterManager.init : ParameterManager ℚ).set_parameter "ParamAngleX"
      250).get_parameter "ParamAngleX" 0 = max (-100) (min 100 250) :=
  ⟨rfl,
    ((C2_set_then_get_clamps ParameterManager.init "ParamAngleX" 250).2.1
      rfl).1⟩

/-! ## Model Parser (`src/model_parser.py`)

`ModelParser.parse_model_file` resolves a path, reads the file and JSON,
then hands the decoded document to `process_model_data`; every failure
(missing file, JSON error, any exception) is caught and returns `None`.
We model the I/O boundary by passing the read/decode result explicitly:
`some doc` for a successfully decoded document, `none` for any read or
decode failure.  `os.path.join(dir, p)` is modelled as `dir ++ "/" ++ p`
(the relative-path case, the only one exercised by model documents). -/

/-- A path join, `os.path.join` restricted to relative second components. -/
def joinPath (dir p : String) : String := dir ++ "/" ++ p

/-- One entry of a motion group inside `FileReferences.Motions`: either a
dict (of which only the `"File"` key is read) or a bare path string. -/
inductive MotionRef where
  | dictRef (file : Option String)
  | strRef (path : String)
deriving DecidableEq

/-- The `"FileReferences"` value of a model document. -/
structure FileRefsDoc where
  moc : Option String
  textures : Option (List String)
  physics : Option String
  motions : Option (List (String × List MotionRef))
deriving DecidableEq

/-- An entry of a parameter-definition list (`Id`, `Default`, `Min`, `Max`
keys, each possibly absent). -/
structure ParamEntryDoc where
  id : Option String
  defaultV : Option ℚ
  minV : Option ℚ
  maxV : Option ℚ
deriving DecidableEq

/-- The `"Parameters"` value of a model document: either a Cubism-4 style
dict (whose `"Parameters"` key may be present or absent) or a bare list. -/
inductive ParamsDoc where
  | wrapped (inner : Option (List ParamEntryDoc))
  | bare (entries : List ParamEntryDoc)
deriving DecidableEq

/-- One entry of the `"Parts"` list; only `"Id"` and `"TexturePath"` are
ever read downstream, everything else is copied through. -/
structure PartDoc where
  id : Option String
  texturePath : Option String
deriving DecidableEq

/-- A decoded `model3.json` document. -/
structure ModelDoc where
  version : Option ℚ
  fileReferences : Option FileRefsDoc
  parameters : Option ParamsDoc
  parts : Option (List PartDoc)
deriving DecidableEq

/-- The dict built by `ModelParser.process_model_data`. -/
structure ProcessedModel where
  version : ℚ
  fileReferences : FileRefsDoc
  parameters : ParamsDoc
  parts : List PartDoc
deriving DecidableEq

namespace ModelParser

/-- `ModelParser.process_file_references`: join every referenced path onto
the model directory; a motion dict without a `"File"` key is dropped. -/
def process_file_references (file_refs : FileRefsDoc) (model_path : String) :
    FileRefsDoc :=
  { moc := file_refs.moc.map (joinPath model_path),
    textures :=
      file_refs.textures.map (fun ts => ts.map (joinPath model_path)),
    physics := file_refs.physics.map (joinPath model_path),
    motions :=
      file_refs.motions.map (fun groups =>
        groups.map (fun g =>
          (g.1,
           g.2.filterMap (fun m =>
             match m with
             | MotionRef.dictRef (some f) =>
                 some (MotionRef.dictRef (some (joinPath model_path f)))
             | MotionRef.dictRef none => none
             | MotionRef.strRef p =>
                 some (MotionRef.strRef (joinPath model_path p)))))) }

/-- `ModelParser.process_parts`: copy each part, joining `TexturePath`
onto the model directory when present.  No id validation happens here. -/
def process_parts (parts : List PartDoc) (model_path : String) :
    List PartDoc :=
  parts.map (fun part =>
    { part with texturePath := part.texturePath.map (joinPath model_path) })

/-- `ModelParser.process_model_data`: always builds and returns a processed
model; there is no validation of the parts list or of part ids. -/
def process_model_data (model_data : ModelDoc) (model_path : String) :
    ProcessedModel :=
  { version := model_data.version.getD 3,
    fileReferences :=
      process_file_references (model_data.fileReferences.getD ⟨none, none, none, none⟩)
        model_path,
    parameters :=
      match model_data.parameters.getD (ParamsDoc.wrapped none) with
      | ParamsDoc.wrapped (some inner) => ParamsDoc.bare inner
      | p => p,
    parts :=
      match model_data.parts with
      | some ps => process_parts ps model_path
      | none => [] }

/-- `ModelParser.parse_model_file`, with the file-read/JSON-decode outcome
passed in as `readResult` (`none` = missing file or decode error, which the
`except` clause turns into a `None` return). -/
def parse_model_file (readResult : Option ModelDoc) (model_dir : String) :
    Option ProcessedModel :=
  readResult.map (fun model_data => process_model_data model_data model_dir)

end ModelParser

/-! ### Claim C3 -/

/-- A document with an explicit empty `Parts` list, one with no `Parts` key
at all, and one whose only part has an empty id. -/
def zeroPartsDoc : ModelDoc := ⟨none, none, none, some []⟩

def noPartsKeyDoc : ModelDoc := ⟨none, none, none, none⟩

def emptyIdPartDoc : ModelDoc := ⟨none, none, none, some [⟨some "", none⟩]⟩

/-- C3 counterexample: the claim says a document with zero parts, or with a
part whose id is empty, fails to parse (returns null).  In fact
`parse_model_file` performs no such validation: all three degenerate
documents parse to a non-null model. -/
theorem C3_counterexample :
    ModelParser.parse_model_file (some zeroPartsDoc) "m" ≠ none ∧
    ModelParser.parse_model_file (some noPartsKeyDoc) "m" ≠ none ∧
    ModelParser.parse_model_file (some emptyIdPartDoc) "m" ≠ none ∧
    zeroPartsDoc.parts = some [] ∧
    emptyIdPartDoc.parts = some [⟨some "", none⟩] := by
  refine ⟨?_, ?_, ?_, rfl, rfl⟩ <;>
    simp [ModelParser.parse_model_file]

/-- C3 amended: `parse_model_file` validates nothing about parts — every
successfully decoded document (zero parts and empty part ids included)
yields the non-null processed model, and `None` is returned exactly when
reading or decoding the file failed. -/
theorem C3_parse_never_validates (readResult : Option ModelDoc)
    (dir : String) :
    (∀ doc, readResult = some doc →
      ModelParser.parse_model_file readResult dir =
        some (ModelParser.process_model_data doc dir)) ∧
    (readResult = none → ModelParser.parse_model_file readResult dir = none) := by
  constructor
  · intro doc h
    subst h
    rfl
  · intro h
    subst h
    rfl

/-- Witness for C3 amended at a concrete input: the zero-parts document
decodes, so parsing returns the processed model with an empty parts list. -/
theorem C3_parse_never_validates_witness :
    ModelParser.parse_model_file (some zeroPartsDoc) "m" =
      some (ModelParser.process_model_data zeroPartsDoc "m") :=
  (C3_parse_never_validates (some zeroPartsDoc) "m").1 zeroPartsDoc rfl

/-! ## Bezier calculator (`src/bezier.py`) -/

namespace BezierCalculator

/-- `BezierCalculator.precision`: number of pre-computed samples. -/
def precision : ℕ := 200

/-- `BezierCalculator.calculate_point`: the cubic Bernstein blend. -/
def calculate_point (p0 p1 p2 p3 t : ℚ) : ℚ :=
  let mt := 1 - t
  let mt2 := mt * mt
  let mt3 := mt2 * mt
  let t2 := t * t
  let t3 := t2 * t
  mt3 * p0 + 3 * mt2 * t * p1 + 3 * mt * t2 * p2 + t3 * p3

/-- `BezierCalculator.create_curve_cache`: the list of
`precision + 1` uniform samples `(i/precision, value(i/precision))`. -/
def create_curve_cache (p0 p1 p2 p3 : ℚ) : List (ℚ × ℚ) :=
  (List.range (precision + 1)).map (fun i : ℕ =>
    ((i : ℚ) / (precision : ℚ),
     calculate_point p0 p1 p2 p3 ((i : ℚ) / (precision : ℚ))))

/-- The `while left <= right` binary-search loop of `evaluate_cached`.
Python's `right` is represented as `r1 = right + 1` so that both cursors
stay in `ℕ` (`right` reaches `-1` only at loop exit, where it is no longer
compared); with that shift, `left <= right` is `left < r1`, `right = mid-1`
is `r1 = mid`, and `(left + right) // 2` is `(left + (r1 - 1)) / 2` — all
quantities are nonnegative whenever the loop body runs, so `ℕ` floor
division agrees with Python's `//`.  Returns the final cursor pair, or the
sample value on an exact hit. -/
def bsearch (cc : List (ℚ × ℚ)) (t : ℚ) (left r1 : ℕ) : (ℕ × ℕ) ⊕ ℚ :=
  if left < r1 then
    let mid := (left + (r1 - 1)) / 2
    let sm := cc.getD mid (0, 0)
    if sm.1 < t then bsearch cc t (mid + 1) r1
    else if t < sm.1 then bsearch cc t left mid
    else Sum.inr sm.2
  else Sum.inl (left, r1)
termination_by r1 - left
decreasing_by
  · omega
  · omega

/-- `BezierCalculator.evaluate_cached`, applied to the sample list found in
the cache (a missing curve id returns `0.0` before this logic runs; caches
built by `create_curve_cache` are never empty, so the empty branch — where
the Python indexing `cached_curve[0]` would raise — is unreachable for
them).  `cached_curve[0]` and `cached_curve[-1]` are the first and last
samples; the loop starts at `left = 0`, `right = len - 1` (`r1 = len`).
After the loop, Python reads `cached_curve[right]` and
`cached_curve[left]`; with `r1 = right + 1` these are indices `r1 - 1` and
`left`. -/
def evaluate_cached (cc : List (ℚ × ℚ)) (t : ℚ) : ℚ :=
  if cc.isEmpty then 0
  else
    let first := cc.getD 0 (0, 0)
    if t ≤ first.1 then first.2
    else
      let lastp := cc.getLast?.getD (0, 0)
      if lastp.1 ≤ t then lastp.2
      else
        match bsearch cc t 0 cc.length with
        | Sum.inr v => v
        | Sum.inl (left, r1) =>
          let p1 := cc.getD (r1 - 1) (0, 0)
          let p2 := cc.getD left (0, 0)
          let fraction :=
            if p2.1 ≠ p1.1 then (t - p1.1) / (p2.1 - p1.1) else 0
          p1.2 + fraction * (p2.2 - p1.2)

theorem calculate_point_zero (p0 p1 p2 p3 : ℚ) :
    calculate_point p0 p1 p2 p3 0 = p0 := by
  simp [calculate_point]

theorem calculate_point_one (p0 p1 p2 p3 : ℚ) :
    calculate_point p0 p1 p2 p3 1 = p3 := by
  simp [calculate_point]

theorem create_curve_cache_length (p0 p1 p2 p3 : ℚ) :
    (create_curve_cache p0 p1 p2 p3).length = 201 := by
  simp [create_curve_cache, precision]

theorem create_curve_cache_not_empty (p0 p1 p2 p3 : ℚ) :
    (create_curve_cache p0 p1 p2 p3).isEmpty = false := by
  simp [create_curve_cache, precision]

/-- The `i`-th sample is `(i/200, value(i/200))`. -/
theorem create_curve_cache_getD (p0 p1 p2 p3 : ℚ) (i : ℕ) (h : i < 201) :
    (create_curve_cache p0 p1 p2 p3).getD i (0, 0) =
      ((i : ℚ) / 200,
       calculate_point p0 p1 p2 p3 ((i : ℚ) / 200)) := by
  unfold create_curve_cache precision
  rw [List.getD_eq_getElem?_getD]
  simp [List.getElem?_map, List.getElem?_range, h]

/-- The sample list starts with `(0, value(0)) = (0, p0)`. -/
theorem create_curve_cache_first (p0 p1 p2 p3 : ℚ) :
    (create_curve_cache p0 p1 p2 p3).getD 0 (0, 0) = (0, p0) := by
  rw [create_curve_cache_getD p0 p1 p2 p3 0 (by norm_num)]
  norm_num [calculate_point_zero]

/-- The sample list ends with `(1, value(1))`. -/
theorem create_curve_cache_getLast (p0 p1 p2 p3 : ℚ) :
    (create_curve_cache p0 p1 p2 p3).getLast? = some (1, p3) := by
  rw [create_curve_cache, List.range_succ, List.map_append]
  simp [List.getLast?_concat, calculate_point_one, precision]

/-- When the loop exits with both cursors at `l` and its invariant (all
samples below `l` lie strictly left of `t`, all samples from `l` on lie
strictly right), the bracket `(l-1)/200 < t < l/200` holds with
`1 ≤ l ≤ 200`. -/
theorem bsearch_exit_bounds (t : ℚ) (ht0 : 0 < t) (ht1 : t < 1) (l : ℕ)
    (hl201 : l ≤ 201)
    (hlow : ∀ i : ℕ, i < l → (i : ℚ) / 200 < t)
    (hhigh : ∀ i : ℕ, l ≤ i → i < 201 → t < (i : ℚ) / 200) :
    1 ≤ l ∧ l ≤ 200 ∧ ((l : ℚ) - 1) / 200 < t ∧ t < (l : ℚ) / 200 := by
  have h1 : 1 ≤ l := by
    by_contra hc
    have hl0 : l = 0 := by omega
    have := hhigh 0 (by omega) (by norm_num)
    norm_num at this
    linarith
  have h2 : l ≤ 200 := by
    by_contra hc
    have hl201' : l = 201 := by omega
    have := hlow 200 (by omega)
    norm_num at this
    linarith
  refine ⟨h1, h2, ?_, hhigh l le_rfl (by omega)⟩
  have hlo := hlow (l - 1) (by omega)
  have hcast : ((l - 1 : ℕ) : ℚ) = (l : ℚ) - 1 := by
    push_cast [h1]
    ring
  rw [hcast] at hlo
  exact hlo

/-- Correctness of the binary-search loop on the 201-sample cache of a
curve, for `0 < t < 1`: it either hits a sample exactly (returning that
sample's value) or exits with both cursors at some `l ∈ [1, 200]` such
that the samples `l-1` and `l` bracket `t`. -/
theorem bsearch_bracket (p0 p1 p2 p3 t : ℚ) (ht0 : 0 < t) (ht1 : t < 1) :
    ∀ (N left r1 : ℕ), r1 - left ≤ N → left ≤ r1 → r1 ≤ 201 →
    (∀ i : ℕ, i < left → (i : ℚ) / 200 < t) →
    (∀ i : ℕ, r1 ≤ i → i < 201 → t < (i : ℚ) / 200) →
    (∃ j : ℕ, j < 201 ∧ ((j : ℚ) / 200) = t ∧
      bsearch (create_curve_cache p0 p1 p2 p3) t left r1 =
        Sum.inr (calculate_point p0 p1 p2 p3 ((j : ℚ) / 200))) ∨
    (∃ l : ℕ,
      bsearch (create_curve_cache p0 p1 p2 p3) t left r1 = Sum.inl (l, l) ∧
      1 ≤ l ∧ l ≤ 200 ∧ ((l : ℚ) - 1) / 200 < t ∧ t < (l : ℚ) / 200) := by
  intro N
  induction N with
  | zero =>
      intro left r1 hN hle hr1 hlow hhigh
      have heq : left = r1 := by omega
      subst heq
      right
      refine ⟨left, ?_, bsearch_exit_bounds t ht0 ht1 left hr1 hlow hhigh⟩
      rw [bsearch]
      simp
  | succ N ih =>
      intro left r1 hN hle hr1 hlow hhigh
      by_cases hlr : left < r1
      · have hmid1 : left ≤ (left + (r1 - 1)) / 2 := by omega
        have hmid2 : (left + (r1 - 1)) / 2 < r1 := by omega
        have hmid3 : (left + (r1 - 1)) / 2 < 201 := by omega
        rw [bsearch]
        rw [if_pos hlr]
        dsimp only
        rw [create_curve_cache_getD p0 p1 p2 p3 _ hmid3]
        by_cases hcmp1 : (((left + (r1 - 1)) / 2 : ℕ) : ℚ) / 200 < t
        · rw [if_pos hcmp1]
          refine ih ((left + (r1 - 1)) / 2 + 1) r1 (by omega) (by omega) hr1
            ?_ hhigh
          intro i hi
          have hile : (i : ℚ) ≤ (((left + (r1 - 1)) / 2 : ℕ) : ℚ) :=
            Nat.cast_le.mpr (by omega)
          calc (i : ℚ) / 200 ≤ (((left + (r1 - 1)) / 2 : ℕ) : ℚ) / 200 := by
                linarith
            _ < t := hcmp1
        · rw [if_neg hcmp1]
          by_cases hcmp2 : t < (((left + (r1 - 1)) / 2 : ℕ) : ℚ) / 200
          · rw [if_pos hcmp2]
            refine ih left ((left + (r1 - 1)) / 2) (by omega) (by omega)
              (by omega) hlow ?_
            intro i hi hi201
            have hile : (((left + (r1 - 1)) / 2 : ℕ) : ℚ) ≤ (i : ℚ) :=
              Nat.cast_le.mpr hi
            calc t < (((left + (r1 - 1)) / 2 : ℕ) : ℚ) / 200 := hcmp2
              _ ≤ (i : ℚ) / 200 := by linarith
          · rw [if_neg hcmp2]
            left
            exact ⟨(left + (r1 - 1)) / 2, hmid3,
              le_antisymm (not_lt.mp hcmp2) (not_lt.mp hcmp1), rfl⟩
      · have heq : left = r1 := by omega
        subst heq
        right
        refine ⟨left, ?_, bsearch_exit_bounds t ht0 ht1 left hr1 hlow hhigh⟩
        rw [bsearch]
        simp

/-- Linear interpolation between two adjacent cache samples of a cubic
Bernstein curve stays within `(M - m)/400` of the curve, whenever the
whole curve lies in `[m, M]` on `[0, 1]`.  The proof is purely algebraic:
the interpolation error of a cubic `q` over `[a, a + h]` factors as
`s(1-s)h² (q₂ + 3q₃a + q₃h(1+s))` with `t = a + sh`, and the second-order
coefficients `q₂ = 3p0 - 6p1 + 3p2`, `q₃ = -p0 + 3p1 - 3p2 + p3` are fixed
rational combinations of the four curve values at `0, 1/3, 2/3, 1`, each
of which lies in `[m, M]`. -/
theorem lerp_error_bound (p0 p1 p2 p3 m M a s : ℚ)
    (hb : ∀ u : ℚ, 0 ≤ u → u ≤ 1 →
      m ≤ calculate_point p0 p1 p2 p3 u ∧ calculate_point p0 p1 p2 p3 u ≤ M)
    (ha0 : 0 ≤ a) (hab : a + 1 / 200 ≤ 1) (hs0 : 0 ≤ s) (hs1 : s ≤ 1) :
    |(1 - s) * calculate_point p0 p1 p2 p3 a +
      s * calculate_point p0 p1 p2 p3 (a + 1 / 200) -
      calculate_point p0 p1 p2 p3 (a + s * (1 / 200))| ≤ (M - m) / 400 := by
  have hv0 := hb 0 (by norm_num) (by norm_num)
  have hvA := hb (1 / 3) (by norm_num) (by norm_num)
  have hvB := hb (2 / 3) (by norm_num) (by norm_num)
  have hv1 := hb 1 (by norm_num) (by norm_num)
  have hR : 0 ≤ M - m := by linarith [hv0.1, hv0.2]
  have hc2id : 3 * p0 - 6 * p1 + 3 * p2 =
      (36 * calculate_point p0 p1 p2 p3 (2 / 3)
        - 45 * calculate_point p0 p1 p2 p3 (1 / 3)
        + 18 * calculate_point p0 p1 p2 p3 0
        - 9 * calculate_point p0 p1 p2 p3 1) / 2 := by
    unfold calculate_point
    ring
  have hc3id : -p0 + 3 * p1 - 3 * p2 + p3 =
      (9 * calculate_point p0 p1 p2 p3 1
        - 27 * calculate_point p0 p1 p2 p3 (2 / 3)
        + 27 * calculate_point p0 p1 p2 p3 (1 / 3)
        - 9 * calculate_point p0 p1 p2 p3 0) / 2 := by
    unfold calculate_point
    ring
  have hc2b : |3 * p0 - 6 * p1 + 3 * p2| ≤ 27 * (M - m) := by
    rw [hc2id, abs_le]
    constructor <;>
      linarith [hv0.1, hv0.2, hvA.1, hvA.2, hvB.1, hvB.2, hv1.1, hv1.2]
  have hc3b : |-p0 + 3 * p1 - 3 * p2 + p3| ≤ 18 * (M - m) := by
    rw [hc3id, abs_le]
    constructor <;>
      linarith [hv0.1, hv0.2, hvA.1, hvA.2, hvB.1, hvB.2, hv1.1, hv1.2]
  have hid : (1 - s) * calculate_point p0 p1 p2 p3 a +
      s * calculate_point p0 p1 p2 p3 (a + 1 / 200) -
      calculate_point p0 p1 p2 p3 (a + s * (1 / 200)) =
      s * (1 - s) * (1 / 200) ^ 2 *
        ((3 * p0 - 6 * p1 + 3 * p2) +
          3 * (-p0 + 3 * p1 - 3 * p2 + p3) * a +
          (-p0 + 3 * p1 - 3 * p2 + p3) * (1 / 200) * (1 + s)) := by
    unfold calculate_point
    ring
  rw [hid, abs_mul]
  have hs1' : 0 ≤ 1 - s := by linarith
  have hprod : |s * (1 - s) * (1 / 200) ^ 2| = s * (1 - s) * (1 / 200) ^ 2 :=
    abs_of_nonneg (by positivity)
  rw [hprod]
  have ha1 : a ≤ 1 := by linarith
  have hX : |(3 * p0 - 6 * p1 + 3 * p2) +
      3 * (-p0 + 3 * p1 - 3 * p2 + p3) * a +
      (-p0 + 3 * p1 - 3 * p2 + p3) * (1 / 200) * (1 + s)| ≤
      82 * (M - m) := by
    have t1 : |3 * (-p0 + 3 * p1 - 3 * p2 + p3) * a| ≤
        3 * (18 * (M - m)) := by
      rw [abs_mul, abs_mul, abs_of_nonneg ha0,
        abs_of_nonneg (by norm_num : (0 : ℚ) ≤ 3)]
      calc 3 * |-p0 + 3 * p1 - 3 * p2 + p3| * a
          ≤ 3 * (18 * (M - m)) * 1 := by
            apply mul_le_mul _ ha1 ha0 (by positivity)
            linarith [hc3b]
        _ = 3 * (18 * (M - m)) := by ring
    have t2 : |(-p0 + 3 * p1 - 3 * p2 + p3) * (1 / 200) * (1 + s)| ≤
        18 * (M - m) * (1 / 200) * 2 := by
      rw [abs_mul, abs_mul,
        abs_of_nonneg (by norm_num : (0 : ℚ) ≤ 1 / 200),
        abs_of_nonneg (by linarith : (0 : ℚ) ≤ 1 + s)]
      apply mul_le_mul _ (by linarith) (by linarith) (by positivity)
      apply mul_le_mul_of_nonneg_right hc3b
      norm_num
    calc |(3 * p0 - 6 * p1 + 3 * p2) +
        3 * (-p0 + 3 * p1 - 3 * p2 + p3) * a +
        (-p0 + 3 * p1 - 3 * p2 + p3) * (1 / 200) * (1 + s)|
        ≤ |(3 * p0 - 6 * p1 + 3 * p2) +
            3 * (-p0 + 3 * p1 - 3 * p2 + p3) * a| +
          |(-p0 + 3 * p1 - 3 * p2 + p3) * (1 / 200) * (1 + s)| :=
            abs_add _ _
      _ ≤ |3 * p0 - 6 * p1 + 3 * p2| +
          |3 * (-p0 + 3 * p1 - 3 * p2 + p3) * a| +
          |(-p0 + 3 * p1 - 3 * p2 + p3) * (1 / 200) * (1 + s)| := by
            linarith [abs_add (3 * p0 - 6 * p1 + 3 * p2)
              (3 * (-p0 + 3 * p1 - 3 * p2 + p3) * a)]
      _ ≤ 82 * (M - m) := by linarith [hc2b, t1, t2]
  have hss : s * (1 - s) ≤ 1 / 4 := by nlinarith [sq_nonneg (s - 1 / 2)]
  have habs0 : (0 : ℚ) ≤ |(3 * p0 - 6 * p1 + 3 * p2) +
      3 * (-p0 + 3 * p1 - 3 * p2 + p3) * a +
      (-p0 + 3 * p1 - 3 * p2 + p3) * (1 / 200) * (1 + s)| := abs_nonneg _
  calc s * (1 - s) * (1 / 200) ^ 2 *
      |(3 * p0 - 6 * p1 + 3 * p2) +
        3 * (-p0 + 3 * p1 - 3 * p2 + p3) * a +
        (-p0 + 3 * p1 - 3 * p2 + p3) * (1 / 200) * (1 + s)|
      ≤ (1 / 4) * (1 / 200) ^ 2 * (82 * (M - m)) := by
        have hcoef : s * (1 - s) * (1 / 200) ^ 2 ≤
            (1 / 4) * (1 / 200) ^ 2 := by nlinarith [hss]
        have hcoef0 : (0 : ℚ) ≤ s * (1 - s) * (1 / 200) ^ 2 := by positivity
        exact mul_le_mul hcoef hX habs0 (by positivity)
    _ ≤ (M - m) / 400 := by linarith [hR]

end BezierCalculator

/-! ### Claim C5 -/

/-- C5: for a curve cached with `precision = 200` and any `t ∈ [0, 1]`,
the cached evaluation (boundary checks, binary search, linear
interpolation) differs from the direct cubic evaluation by at most
`1/(2·200)` of the curve's value range: whenever the curve lies in
`[m, M]` on `[0, 1]`, the error is at most `(M - m)/400`. -/
theorem C5_cached_vs_direct_error_bound (p0 p1 p2 p3 t m M : ℚ)
    (hb : ∀ u : ℚ, 0 ≤ u → u ≤ 1 →
      m ≤ BezierCalculator.calculate_point p0 p1 p2 p3 u ∧
      BezierCalculator.calculate_point p0 p1 p2 p3 u ≤ M)
    (ht0 : 0 ≤ t) (ht1 : t ≤ 1) :
    |BezierCalculator.evaluate_cached
        (BezierCalculator.create_curve_cache p0 p1 p2 p3) t -
      BezierCalculator.calculate_point p0 p1 p2 p3 t| ≤
      (M - m) / (2 * 200) := by
  have hR : 0 ≤ M - m := by
    have h := hb t ht0 ht1
    linarith [h.1, h.2]
  have hbnd : (0 : ℚ) ≤ (M - m) / (2 * 200) := by positivity
  unfold BezierCalculator.evaluate_cached
  rw [if_neg (by simp [BezierCalculator.create_curve_cache_not_empty])]
  dsimp only
  rw [BezierCalculator.create_curve_cache_first]
  by_cases hle : t ≤ (0 : ℚ)
  · have ht : t = 0 := le_antisymm hle ht0
    subst ht
    rw [if_pos (by norm_num)]
    simp [BezierCalculator.calculate_point_zero, hbnd]
  · rw [if_neg (by simpa using hle)]
    rw [BezierCalculator.create_curve_cache_getLast]
    dsimp only [Option.getD_some]
    by_cases hge : (1 : ℚ) ≤ t
    · have ht : t = 1 := le_antisymm ht1 hge
      subst ht
      rw [if_pos (by norm_num)]
      simp [BezierCalculator.calculate_point_one, hbnd]
    · rw [if_neg (by simpa using hge)]
      have hlt0 : 0 < t := lt_of_not_le hle
      have hlt1 : t < 1 := lt_of_not_le hge
      rw [BezierCalculator.create_curve_cache_length]
      rcases BezierCalculator.bsearch_bracket p0 p1 p2 p3 t hlt0 hlt1
          201 0 201 (by omega) (by omega) (by omega)
          (by omega) (by intro i h1 h2; omega) with
        ⟨j, hj201, hjt, hres⟩ | ⟨l, hres, h1l, hl200, hbrl, hbrr⟩
      · rw [hres, hjt]
        simp [hbnd]
      · rw [hres]
        dsimp only
        rw [BezierCalculator.create_curve_cache_getD p0 p1 p2 p3 (l - 1)
          (by omega),
          BezierCalculator.create_curve_cache_getD p0 p1 p2 p3 l
          (by omega)]
        have hcast : ((l - 1 : ℕ) : ℚ) = (l : ℚ) - 1 := by
          push_cast [h1l]
          ring
        rw [hcast]
        dsimp only
        have hne : ((l : ℚ) / 200 : ℚ) ≠ ((l : ℚ) - 1) / 200 := by
          intro he
          have : (l : ℚ) = (l : ℚ) - 1 := by
            field_simp at he
            linarith
          linarith
        rw [if_pos hne]
        have hl1 : (1 : ℚ) ≤ (l : ℚ) := by exact_mod_cast h1l
        have hl200' : (l : ℚ) ≤ 200 := by exact_mod_cast hl200
        have ha0 : (0 : ℚ) ≤ ((l : ℚ) - 1) / 200 :=
          div_nonneg (by linarith) (by norm_num)
        have hab : ((l : ℚ) - 1) / 200 + 1 / 200 ≤ 1 := by
          rw [show ((l : ℚ) - 1) / 200 + 1 / 200 = (l : ℚ) / 200 by ring]
          linarith
        have hs0 : 0 ≤ (t - ((l : ℚ) - 1) / 200) / (1 / 200) :=
          div_nonneg (by linarith) (by norm_num)
        have hs1 : (t - ((l : ℚ) - 1) / 200) / (1 / 200) ≤ 1 := by
          rw [div_le_one (by norm_num)]
          have : t < ((l : ℚ) - 1) / 200 + 1 / 200 := by
            rw [show ((l : ℚ) - 1) / 200 + 1 / 200 = (l : ℚ) / 200 by ring]
            exact hbrr
          linarith
        have hlerp := BezierCalculator.lerp_error_bound p0 p1 p2 p3 m M
          (((l : ℚ) - 1) / 200) ((t - ((l : ℚ) - 1) / 200) / (1 / 200))
          hb ha0 hab hs0 hs1
        rw [show ((l : ℚ) - 1) / 200 + 1 / 200 = (l : ℚ) / 200
          by ring] at hlerp
        rw [show ((l : ℚ) - 1) / 200 +
              (t - ((l : ℚ) - 1) / 200) / (1 / 200) * (1 / 200) = t
          by field_simp] at hlerp
        have hvaleq : BezierCalculator.calculate_point p0 p1 p2 p3
            (((l : ℚ) - 1) / 200) +
            (t - ((l : ℚ) - 1) / 200) /
              ((l : ℚ) / 200 - ((l : ℚ) - 1) / 200) *
              (BezierCalculator.calculate_point p0 p1 p2 p3 ((l : ℚ) / 200) -
               BezierCalculator.calculate_point p0 p1 p2 p3
                 (((l : ℚ) - 1) / 200)) =
            (1 - (t - ((l : ℚ) - 1) / 200) / (1 / 200)) *
              BezierCalculator.calculate_point p0 p1 p2 p3
                (((l : ℚ) - 1) / 200) +
            (t - ((l : ℚ) - 1) / 200) / (1 / 200) *
              BezierCalculator.calculate_point p0 p1 p2 p3 ((l : ℚ) / 200) := by
          rw [show (l : ℚ) / 200 - ((l : ℚ) - 1) / 200 = 1 / 200 by ring]
          ring
        rw [hvaleq]
        calc |(1 - (t - ((l : ℚ) - 1) / 200) / (1 / 200)) *
              BezierCalculator.calculate_point p0 p1 p2 p3
                (((l : ℚ) - 1) / 200) +
            (t - ((l : ℚ) - 1) / 200) / (1 / 200) *
              BezierCalculator.calculate_point p0 p1 p2 p3 ((l : ℚ) / 200) -
            BezierCalculator.calculate_point p0 p1 p2 p3 t|
            ≤ (M - m) / 400 := hlerp
          _ ≤ (M - m) / (2 * 200) := by norm_num

/-- Witness for C5 at a concrete input: the curve with control points
`(0, 0, 0, 1)` (the cubic `u³`, which lies in `[0, 1]` on `[0, 1]`)
evaluated at `t = 1/2`: the cached value is within `1/400` of `1/8`. -/
theorem C5_cached_vs_direct_error_bound_witness :
    |BezierCalculator.evaluate_cached
        (BezierCalculator.create_curve_cache 0 0 0 1) (1 / 2) -
      BezierCalculator.calculate_point 0 0 0 1 (1 / 2)| ≤
      (1 - 0) / (2 * 200) := by
  refine C5_cached_vs_direct_error_bound 0 0 0 1 (1 / 2) 0 1 ?_
    (by norm_num) (by norm_num)
  intro u h1 h2
  have hu : BezierCalculator.calculate_point 0 0 0 1 u = u ^ 3 := by
    unfold BezierCalculator.calculate_point
    ring
  rw [hu]
  constructor
  · exact pow_nonneg h1 3
  · nlinarith [h1, h2, sq_nonneg u, mul_nonneg h1 h1]

/-! ### Claim C7 -/

/-- C7: for a cached curve and `t` outside `[0, 1]`, `evaluate_cached`
returns exactly the boundary sample value: the first sample's value
(`value(0) = p0`) for `t` below `0`, the last sample's value
(`value(1) = p3`) for `t` above `1` — no extrapolation. -/
theorem C7_evaluate_cached_clamps_outside (p0 p1 p2 p3 t : ℚ) :
    (t < 0 →
      BezierCalculator.evaluate_cached
        (BezierCalculator.create_curve_cache p0 p1 p2 p3) t = p0) ∧
    (1 < t →
      BezierCalculator.evaluate_cached
        (BezierCalculator.create_curve_cache p0 p1 p2 p3) t = p3) := by
  constructor
  · intro ht
    unfold BezierCalculator.evaluate_cached
    rw [BezierCalculator.create_curve_cache_not_empty,
      BezierCalculator.create_curve_cache_first]
    simp [le_of_lt ht]
  · intro ht
    unfold BezierCalculator.evaluate_cached
    rw [BezierCalculator.create_curve_cache_not_empty,
      BezierCalculator.create_curve_cache_first,
      BezierCalculator.create_curve_cache_getLast]
    have h0 : ¬ t ≤ 0 := by linarith
    simp [h0, le_of_lt ht]

/-- Witness for C7 at a concrete input: the cached curve for control points
`(5, 7, 11, 13)` evaluates to `5` at `t = -2` and to `13` at `t = 3`. -/
theorem C7_evaluate_cached_clamps_outside_witness :
    BezierCalculator.evaluate_cached
      (BezierCalculator.create_curve_cache 5 7 11 13) (-2) = 5 ∧
    BezierCalculator.evaluate_cached
      (BezierCalculator.create_curve_cache 5 7 11 13) 3 = 13 :=
  ⟨(C7_evaluate_cached_clamps_outside 5 7 11 13 (-2)).1 (by norm_num),
   (C7_evaluate_cached_clamps_outside 5 7 11 13 3).2 (by norm_num)⟩

/-! ## Physics system (`src/physics.py`)

Positions, velocities and forces are 2-vectors (`ℝ × ℝ`);
`numpy.linalg.norm` is `Real.sqrt` of the sum of squares.  The module is
modelled over `ℝ` because of the square root. -/

/-- Componentwise `numpy` vector addition. -/
def vadd (a b : ℝ × ℝ) : ℝ × ℝ := (a.1 + b.1, a.2 + b.2)

/-- Componentwise `numpy` vector subtraction. -/
def vsub (a b : ℝ × ℝ) : ℝ × ℝ := (a.1 - b.1, a.2 - b.2)

/-- Scalar times vector. -/
def vscale (c : ℝ) (v : ℝ × ℝ) : ℝ × ℝ := (c * v.1, c * v.2)

/-- `numpy.linalg.norm` of a 2-vector. -/
noncomputable def npNorm (v : ℝ × ℝ) : ℝ := Real.sqrt (v.1 ^ 2 + v.2 ^ 2)

/-- `PhysicsPoint`. -/
structure PhysicsPoint where
  position : ℝ × ℝ
  prev_position : ℝ × ℝ
  velocity : ℝ × ℝ
  mass : ℝ
  fixed : Bool

/-- A placeholder point for out-of-range list reads; every read through it
is guarded by an index check, mirroring the source's explicit guard. -/
def dummyPoint : PhysicsPoint := ⟨(0, 0), (0, 0), (0, 0), 1, false⟩

/-- `PhysicsSpring`.  `rest_length` is the resolved rest length: the
constructor's `length=None` case is resolved by `PhysicsGroup.add_spring`
to the current inter-point distance before the spring is ever solved. -/
structure PhysicsSpring where
  point1_idx : ℕ
  point2_idx : ℕ
  rest_length : ℝ
  stiffness : ℝ

/-- `PhysicsGroup`. -/
structure PhysicsGroup where
  id : String
  influence_parameter : String
  input_parameter : String
  points : List PhysicsPoint
  springs : List PhysicsSpring

namespace PhysicsSystem

/-- `PhysicsSystem.apply_external_forces`: gravity, an input-driven
horizontal force, then air-resistance damping, on every non-fixed point. -/
def apply_external_forces (gravity : ℝ × ℝ) (air_resistance : ℝ)
    (group : PhysicsGroup) (input_value delta_time : ℝ) : PhysicsGroup :=
  { group with
    points := group.points.map (fun point =>
      if point.fixed then point
      else
        let gravity_force := vscale (point.mass * delta_time) gravity
        let input_force := vscale delta_time (input_value * 0.1, 0)
        let velocity := vadd point.velocity (vadd gravity_force input_force)
        { point with velocity := vscale (1 - air_resistance) velocity }) }

/-- `PhysicsSystem.update_points`: Verlet integration on every non-fixed
point. -/
noncomputable def update_points (group : PhysicsGroup) (delta_time : ℝ) :
    PhysicsGroup :=
  { group with
    points := group.points.map (fun point =>
      if point.fixed then point
      else
        let current_pos := point.position
        let new_pos :=
          vadd (vsub (vscale 2 point.position) point.prev_position)
            (vscale delta_time point.velocity)
        { point with
          prev_position := current_pos,
          position := new_pos,
          velocity := vscale (1 / delta_time) (vsub new_pos current_pos) }) }

/-- One spring relaxation step of `PhysicsSystem.solve_constraints`:
skip springs with out-of-range endpoints or near-zero current length,
otherwise move each non-fixed endpoint by half the correction. -/
noncomputable def solveSpring (points : List PhysicsPoint)
    (spring : PhysicsSpring) : List PhysicsPoint :=
  if spring.point1_idx ≥ points.length ∨ spring.point2_idx ≥ points.length
  then points
  else
    let point1 := points.getD spring.point1_idx dummyPoint
    let point2 := points.getD spring.point2_idx dummyPoint
    let delta := vsub point2.position point1.position
    let current_length := npNorm delta
    if current_length < 0.0001 then points
    else
      let diff_ratio := (spring.rest_length - current_length) / current_length
      let correction := vscale (diff_ratio * 0.5 * spring.stiffness) delta
      let points' :=
        if point1.fixed then points
        else
          points.set spring.point1_idx
            { point1 with position := vsub point1.position correction }
      if point2.fixed then points'
      else
        points'.set spring.point2_idx
          { point2 with position := vadd point2.position correction }

/-- `PhysicsSystem.solve_constraints`: three Gauss-Seidel sweeps over the
group's springs. -/
noncomputable def solve_constraints (group : PhysicsGroup) : PhysicsGroup :=
  { group with
    points := (fun pts => group.springs.foldl solveSpring pts)^[3] group.points }

/-- `PhysicsSystem.calculate_result`: `5.0` times the horizontal offset of
the last point from the first. -/
def calculate_result (group : PhysicsGroup) : ℝ :=
  match group.points with
  | [] => 0
  | p :: ps =>
      let end_point := (p :: ps).getLast (by simp)
      let start_point := p
      (end_point.position.1 - start_point.position.1) * 5.0

/-- `PhysicsSystem` state: the parameter manager, the groups, and the
constants set in `__init__` (`gravity = (0, -9.8)`,
`air_resistance = 0.01`). -/
structure State where
  parameter_manager : ParameterManager ℝ
  groups : List PhysicsGroup
  gravity : ℝ × ℝ
  air_resistance : ℝ

/-- `PhysicsSystem.__init__`. -/
def State.init (pm : ParameterManager ℝ) : State :=
  ⟨pm, [], (0, -9.8), 0.01⟩

/-- The clamp applied to the host-supplied `delta_time` at the top of
`PhysicsSystem.update`: `delta_time = min(delta_time, 0.033)`. -/
noncomputable def used_dt (delta_time : ℝ) : ℝ := min delta_time 0.033

/-- The per-group body of `PhysicsSystem.update`: read the input parameter,
apply forces, integrate, solve constraints, then write the result
parameter.  Returns the updated group and parameter manager. -/
noncomputable def updateGroup (gravity : ℝ × ℝ) (air_resistance : ℝ)
    (pm : ParameterManager ℝ) (group : PhysicsGroup) (delta_time : ℝ) :
    PhysicsGroup × ParameterManager ℝ :=
  let input_value := pm.get_parameter group.input_parameter 0
  let group := apply_external_forces gravity air_resistance group input_value
    delta_time
  let group := update_points group delta_time
  let group := solve_constraints group
  let result_value := calculate_result group
  (group, pm.set_parameter group.influence_parameter result_value)

/-- The group loop of `PhysicsSystem.update`, at a given (already clamped)
time step. -/
noncomputable def updateLoop (s : State) (delta_time : ℝ) : State :=
  let folded := s.groups.foldl
    (fun (acc : List PhysicsGroup × ParameterManager ℝ) group =>
      let gp := updateGroup s.gravity s.air_resistance acc.2 group delta_time
      (acc.1 ++ [gp.1], gp.2))
    ([], s.parameter_manager)
  { s with groups := folded.1, parameter_manager := folded.2 }

/-- `PhysicsSystem.update`: clamp the time step, then run the group loop. -/
noncomputable def update (s : State) (delta_time : ℝ) : State :=
  updateLoop s (used_dt delta_time)

end PhysicsSystem

/-! ### Claim C6 -/

/-- C6 counterexample: the claim says every `delta_time <= 1/30 s` is used
unchanged, but the source clamps with the constant `0.033`, which is
strictly smaller than `1/30 = 0.0333...`; at `delta_time = 1/30` the time
step actually used is `0.033`, not `1/30`. -/
theorem C6_counterexample :
    PhysicsSystem.used_dt (1 / 30) ≠ 1 / 30 := by
  unfold PhysicsSystem.used_dt
  rw [min_eq_right (by norm_num)]
  norm_num

/-- C6 amended: `PhysicsSystem.update` runs force application, integration
and constraint solving (the group loop) at the time step
`min(delta_time, 0.033)`; this used step never exceeds `1/30` s, and any
supplied `delta_time <= 0.033` s (not `1/30`) is used unchanged. -/
theorem C6_update_clamps_dt (s : PhysicsSystem.State) (dt : ℝ) :
    PhysicsSystem.update s dt =
      PhysicsSystem.updateLoop s (min dt 0.033) ∧
    PhysicsSystem.used_dt dt ≤ 1 / 30 ∧
    (dt ≤ 0.033 → PhysicsSystem.used_dt dt = dt) := by
  refine ⟨rfl, ?_, fun h => min_eq_left h⟩
  calc PhysicsSystem.used_dt dt ≤ 0.033 := min_le_right _ _
    _ ≤ 1 / 30 := by norm_num

/-- Witness for C6 at a concrete input: a fresh system and
`delta_time = 1/100 <= 0.033` s, which is used unchanged. -/
theorem C6_update_clamps_dt_witness :
    (1 / 100 : ℝ) ≤ 0.033 ∧ PhysicsSystem.used_dt (1 / 100) = 1 / 100 :=
  ⟨by norm_num,
    (C6_update_clamps_dt (PhysicsSystem.State.init ParameterManager.init)
      (1 / 100)).2.2 (by norm_num)⟩

/-! ### Claim C4 -/

theorem npNorm_vscale (c : ℝ) (v : ℝ × ℝ) :
    npNorm (vscale c v) = |c| * npNorm v := by
  unfold npNorm vscale
  rw [show (c * v.1) ^ 2 + (c * v.2) ^ 2 = c ^ 2 * (v.1 ^ 2 + v.2 ^ 2) by
    ring]
  rw [Real.sqrt_mul (sq_nonneg c), Real.sqrt_sq_eq_abs]

theorem npNorm_nonneg (v : ℝ × ℝ) : 0 ≤ npNorm v := Real.sqrt_nonneg _

/-- `solveSpring` never moves a point whose `fixed` flag is set (and never
changes the length of the point list). -/
theorem solveSpring_preserves_fixed (pts : List PhysicsPoint)
    (s : PhysicsSpring) (i : ℕ)
    (h : (pts.getD i dummyPoint).fixed = true) :
    (PhysicsSystem.solveSpring pts s).getD i dummyPoint =
      pts.getD i dummyPoint := by
  simp only [List.getD_eq_getElem?_getD] at h ⊢
  unfold PhysicsSystem.solveSpring
  split
  · rfl
  · dsimp only
    split
    · rfl
    · by_cases h1 : (pts[s.point1_idx]?.getD dummyPoint).fixed = true
      · by_cases h2 : (pts[s.point2_idx]?.getD dummyPoint).fixed = true
        · simp [List.getD_eq_getElem?_getD, h1, h2]
        · have hne : s.point2_idx ≠ i := fun he => by
            subst he
            rw [h] at h2
            exact h2 rfl
          simp [List.getD_eq_getElem?_getD, h1, h2,
            List.getElem?_set_ne hne]
      · have hne1 : s.point1_idx ≠ i := fun he => by
          subst he
          rw [h] at h1
          exact h1 rfl
        by_cases h2 : (pts[s.point2_idx]?.getD dummyPoint).fixed = true
        · simp [List.getD_eq_getElem?_getD, h1, h2,
            List.getElem?_set_ne hne1]
        · have hne2 : s.point2_idx ≠ i := fun he => by
            subst he
            rw [h] at h2
            exact h2 rfl
          simp [List.getD_eq_getElem?_getD, h1, h2,
            List.getElem?_set_ne hne1, List.getElem?_set_ne hne2]

/-- Fixed points survive a whole sweep over a spring list. -/
theorem foldl_solveSpring_preserves_fixed (springs : List PhysicsSpring)
    (pts : List PhysicsPoint) (i : ℕ)
    (h : (pts.getD i dummyPoint).fixed = true) :
    (springs.foldl PhysicsSystem.solveSpring pts).getD i dummyPoint =
      pts.getD i dummyPoint := by
  induction springs generalizing pts with
  | nil => rfl
  | cons s rest ih =>
      rw [List.foldl_cons]
      rw [ih (PhysicsSystem.solveSpring pts s)
        (by rw [solveSpring_preserves_fixed pts s i h]; exact h)]
      exact solveSpring_preserves_fixed pts s i h

/-- `solve_constraints` never moves a fixed point. -/
theorem solve_constraints_preserves_fixed (group : PhysicsGroup) (i : ℕ)
    (h : (group.points.getD i dummyPoint).fixed = true) :
    ((PhysicsSystem.solve_constraints group).points.getD i dummyPoint) =
      group.points.getD i dummyPoint := by
  show ((fun pts => group.springs.foldl PhysicsSystem.solveSpring pts)^[3]
      group.points).getD i dummyPoint = _
  have step :
      ∀ pts : List PhysicsPoint, (pts.getD i dummyPoint) =
        group.points.getD i dummyPoint →
      ((group.springs.foldl PhysicsSystem.solveSpring pts).getD i dummyPoint)
        = group.points.getD i dummyPoint := by
    intro pts hp
    rw [foldl_solveSpring_preserves_fixed group.springs pts i
      (by rw [hp]; exact h), hp]
  have h3 : (fun pts => group.springs.foldl PhysicsSystem.solveSpring pts)^[3]
      group.points =
      group.springs.foldl PhysicsSystem.solveSpring
        (group.springs.foldl PhysicsSystem.solveSpring
          (group.springs.foldl PhysicsSystem.solveSpring group.points)) := rfl
  rw [h3]
  exact step _ (step _ (step _ rfl))

/-- The half-correction applied to each endpoint of a two-point spring with
`stiffness = 1`. -/
noncomputable def corr2 (a b : PhysicsPoint) (L : ℝ) : ℝ × ℝ :=
  vscale
    ((L - npNorm (vsub b.position a.position)) /
        npNorm (vsub b.position a.position) * 0.5 * 1)
    (vsub b.position a.position)

/-- A group of two points joined by one spring with `stiffness = 1.0` and
rest length `L`. -/
def twoPointGroup (a b : PhysicsPoint) (L : ℝ) : PhysicsGroup :=
  ⟨"spring_group", "out_param", "in_param", [a, b], [⟨0, 1, L, 1⟩]⟩

/-- One relaxation step on a stretched two-point spring moves each free
endpoint by half the correction. -/
theorem solveSpring_two_free (a b : PhysicsPoint) (L : ℝ)
    (ha : a.fixed = false) (hb : b.fixed = false)
    (hd : ¬ npNorm (vsub b.position a.position) < 0.0001) :
    PhysicsSystem.solveSpring [a, b] ⟨0, 1, L, 1⟩ =
      [{ a with position := vsub a.position (corr2 a b L) },
       { b with position := vadd b.position (corr2 a b L) }] := by
  unfold PhysicsSystem.solveSpring corr2
  simp [ha, hb, hd]

theorem vscale_vscale (c c' : ℝ) (d : ℝ × ℝ) :
    vscale c (vscale c' d) = vscale (c * c') d := by
  unfold vscale
  exact Prod.ext_iff.mpr ⟨by ring, by ring⟩

theorem vscale_one (d : ℝ × ℝ) : vscale 1 d = d := by
  unfold vscale
  exact Prod.ext_iff.mpr ⟨by ring, by ring⟩

theorem vadd_self_vscale (d : ℝ × ℝ) (y : ℝ) :
    vadd d (vscale y d) = vscale (1 + y) d := by
  unfold vadd vscale
  exact Prod.ext_iff.mpr ⟨by ring, by ring⟩

/-- Pulling one endpoint in by `c` and pushing the other out by `c` adds
`2c` to the separation vector. -/
theorem vsub_vadd_vsub (q p c : ℝ × ℝ) :
    vsub (vadd q c) (vsub p c) = vadd (vsub q p) (vscale 2 c) := by
  unfold vadd vsub vscale
  exact Prod.ext_iff.mpr ⟨by ring, by ring⟩

/-- Relaxing a two-point spring (both endpoints free) whose current length
is exactly the rest length leaves both points untouched. -/
theorem solveSpring_at_rest (a b : PhysicsPoint) (L : ℝ)
    (ha : a.fixed = false) (hb : b.fixed = false)
    (hdist : npNorm (vsub b.position a.position) = L) :
    PhysicsSystem.solveSpring [a, b] ⟨0, 1, L, 1⟩ = [a, b] := by
  by_cases hsmall : npNorm (vsub b.position a.position) < 0.0001
  · unfold PhysicsSystem.solveSpring
    simp [hsmall]
  · rw [solveSpring_two_free a b L ha hb hsmall]
    have hcorr : corr2 a b L = vscale 0 (vsub b.position a.position) := by
      unfold corr2
      rw [hdist, sub_self, zero_div, zero_mul, zero_mul]
    have hzero : ∀ v : ℝ × ℝ, vscale 0 v = (0, 0) := fun v => by
      unfold vscale
      norm_num
    have hsub : vsub a.position (0, 0) = a.position := by
      unfold vsub
      exact Prod.ext_iff.mpr ⟨by ring, by ring⟩
    have hadd : vadd b.position (0, 0) = b.position := by
      unfold vadd
      exact Prod.ext_iff.mpr ⟨by ring, by ring⟩
    rw [hcorr, hzero, hsub, hadd]

/-- The corrected endpoints of a stretched spring end up exactly `L`
apart. -/
theorem dist_after_correction (a b : PhysicsPoint) (L : ℝ) (hL : 0 ≤ L)
    (hd : (0.0001 : ℝ) < npNorm (vsub b.position a.position)) :
    npNorm (vsub (vadd b.position (corr2 a b L))
      (vsub a.position (corr2 a b L))) = L := by
  set n := npNorm (vsub b.position a.position) with hn
  have hnpos : 0 < n := lt_trans (by norm_num) hd
  have hn0 : n ≠ 0 := ne_of_gt hnpos
  have key : vsub (vadd b.position (corr2 a b L))
      (vsub a.position (corr2 a b L)) =
      vscale (L / n) (vsub b.position a.position) := by
    rw [vsub_vadd_vsub]
    unfold corr2
    rw [← hn, vscale_vscale, vadd_self_vscale]
    congr 1
    field_simp
    ring
  rw [key, npNorm_vscale, ← hn,
    abs_of_nonneg (div_nonneg hL (le_of_lt hnpos))]
  field_simp

/-! ### Claim C4 -/

/-- C4: on a physics group of two non-fixed points joined by one spring
with `stiffness = 1.0` and rest length `L ≥ 0`, starting at inter-point
distance `> 0.0001`, `solve_constraints` (3 relaxation sweeps, no external
forces) leaves the two points exactly `L` apart; and on any group,
relaxation never moves a point marked fixed. -/
theorem C4_solve_constraints_converges (a b : PhysicsPoint) (L : ℝ)
    (ha : a.fixed = false) (hb : b.fixed = false) (hL : 0 ≤ L)
    (hd : (0.0001 : ℝ) < npNorm (vsub b.position a.position)) :
    (npNorm (vsub
      (((PhysicsSystem.solve_constraints (twoPointGroup a b L)).points.getD 1
        dummyPoint).position)
      (((PhysicsSystem.solve_constraints (twoPointGroup a b L)).points.getD 0
        dummyPoint).position)) = L) ∧
    (∀ (group : PhysicsGroup) (i : ℕ),
      (group.points.getD i dummyPoint).fixed = true →
      ((PhysicsSystem.solve_constraints group).points.getD i
        dummyPoint).position = (group.points.getD i dummyPoint).position) := by
  constructor
  · set a' : PhysicsPoint :=
      { a with position := vsub a.position (corr2 a b L) } with ha'
    set b' : PhysicsPoint :=
      { b with position := vadd b.position (corr2 a b L) } with hb'
    have hstep1 : PhysicsSystem.solveSpring [a, b] ⟨0, 1, L, 1⟩ = [a', b'] :=
      solveSpring_two_free a b L ha hb (not_lt.mpr (le_of_lt hd))
    have hdist1 : npNorm (vsub b'.position a'.position) = L :=
      dist_after_correction a b L hL hd
    have hstep2 : PhysicsSystem.solveSpring [a', b'] ⟨0, 1, L, 1⟩ =
        [a', b'] := solveSpring_at_rest a' b' L ha hb hdist1
    have hpts : (PhysicsSystem.solve_constraints (twoPointGroup a b L)).points
        = [a', b'] := by
      show (fun pts =>
        [(⟨0, 1, L, 1⟩ : PhysicsSpring)].foldl PhysicsSystem.solveSpring
          pts)^[3] [a, b] = [a', b']
      simp only [Function.iterate_succ_apply, Function.iterate_zero_apply,
        List.foldl_cons, List.foldl_nil]
      rw [hstep1, hstep2, hstep2]
    rw [hpts]
    exact hdist1
  · intro group i hfix
    rw [solve_constraints_preserves_fixed group i hfix]

/-- Witness for C4 at a concrete input: points at `(0,0)` and `(3,0)`
(distance `3 > 0.0001`), rest length `1`; after `solve_constraints` the
two points are exactly `1` apart. -/
theorem C4_solve_constraints_converges_witness :
    (0.0001 : ℝ) <
      npNorm (vsub (⟨(3, 0), (3, 0), (0, 0), 1, false⟩ : PhysicsPoint).position
        (⟨(0, 0), (0, 0), (0, 0), 1, false⟩ : PhysicsPoint).position) ∧
    npNorm (vsub
      (((PhysicsSystem.solve_constraints
        (twoPointGroup ⟨(0, 0), (0, 0), (0, 0), 1, false⟩
          ⟨(3, 0), (3, 0), (0, 0), 1, false⟩ 1)).points.getD 1
        dummyPoint).position)
      (((PhysicsSystem.solve_constraints
        (twoPointGroup ⟨(0, 0), (0, 0), (0, 0), 1, false⟩
          ⟨(3, 0), (3, 0), (0, 0), 1, false⟩ 1)).points.getD 0
        dummyPoint).position)) = 1 := by
  have hdist : npNorm
      (vsub ((3 : ℝ), (0 : ℝ)) ((0 : ℝ), (0 : ℝ))) = 3 := by
    unfold npNorm vsub
    norm_num
    rw [show (9 : ℝ) = 3 ^ 2 by norm_num, Real.sqrt_sq (by norm_num)]
  have hd : (0.0001 : ℝ) <
      npNorm (vsub ((3 : ℝ), (0 : ℝ)) ((0 : ℝ), (0 : ℝ))) := by
    rw [hdist]
    norm_num
  exact ⟨hd,
    (C4_solve_constraints_converges ⟨(0, 0), (0, 0), (0, 0), 1, false⟩
      ⟨(3, 0), (3, 0), (0, 0), 1, false⟩ 1 rfl rfl (by norm_num) hd).1⟩

/-! ## Motion system (`src/motion_parser.py`) -/

/-- One entry of a motion document's `Curves` list (keys `Target`, `Id`,
`Segments`, each possibly absent).  Segment payloads are flat number lists
in the Live2D format `[type, t, v, ...]`. -/
structure CurveDoc where
  target : Option String
  id : Option String
  segments : Option (List ℚ)
deriving DecidableEq

/-- The `Meta` dict of a motion document. -/
structure MetaDoc where
  duration : Option ℚ
  fps : Option ℚ
  loop : Option Bool
  fade_in_time : Option ℚ
  fade_out_time : Option ℚ
deriving DecidableEq

/-- A decoded `motion3.json` document. -/
structure MotionDoc where
  meta : Option MetaDoc
  curves : Option (List CurveDoc)
deriving DecidableEq

/-- The `Motion` class. -/
structure Motion where
  id : String
  duration : ℚ
  fps : ℚ
  loop : Bool
  fade_in_time : ℚ
  fade_out_time : ℚ
  curves : List CurveDoc
deriving DecidableEq

/-- `Motion.from_dict`: metadata defaults and
`motion.curves = data.get("Curves", [])`.  In Python this assignment
aliases the document's own `Curves` list object — `motion.curves` and the
document list are one and the same list (see C10). -/
def Motion.from_dict (motion_id : String) (data : MotionDoc) : Motion :=
  let meta := data.meta.getD ⟨none, none, none, none, none⟩
  { id := motion_id,
    duration := meta.duration.getD 0,
    fps := meta.fps.getD 30,
    loop := meta.loop.getD true,
    fade_in_time := meta.fade_in_time.getD 1,
    fade_out_time := meta.fade_out_time.getD 1,
    curves := data.curves.getD [] }

/-- The normalized curve entry built by the loop body of
`MotionParser.parse_motion_file` (lines 88–95): a dict with all three keys
present, defaulted from the raw entry. -/
def processedCurve (curve_data : CurveDoc) : CurveDoc :=
  ⟨some (curve_data.target.getD ""), some (curve_data.id.getD ""),
   some (curve_data.segments.getD [])⟩

/-- One iteration of the `for curve_data in curves:` loop of
`parse_motion_file`.  Because `Motion.from_dict` aliased `motion.curves`
to the very list being iterated, the body's
`motion.curves.append(curve)` appends to that same list; a Python `for`
over a list is index-based (`while i < len(lst)`), so the loop state is
the shared list plus the index.  `none` means the loop has exited. -/
def parseCurvesStep (curves : List CurveDoc) (i : ℕ) :
    Option (List CurveDoc × ℕ) :=
  if h : i < curves.length then
    some (curves ++ [processedCurve (curves.get ⟨i, h⟩)], i + 1)
  else none

/-- The loop state after `k` iterations, starting from the document's
curve list; `none` once the loop has exited. -/
def parseCurvesState (curves : List CurveDoc) : ℕ → Option (List CurveDoc × ℕ)
  | 0 => some (curves, 0)
  | k + 1 =>
      match parseCurvesState curves k with
      | none => none
      | some st => parseCurvesStep st.1 st.2

/-! ### Claim C10 -/

/-- While the curve loop keeps running on a nonempty initial list, the
index always equals the iteration count and the shared list has grown by
exactly that count — so the index never catches up with the length. -/
theorem parseCurvesState_runs_forever (curves : List CurveDoc)
    (hne : curves ≠ []) (k : ℕ) :
    ∃ st, parseCurvesState curves k = some st ∧ st.2 = k ∧
      st.1.length = curves.length + k := by
  have hpos : 0 < curves.length := List.length_pos.mpr hne
  induction k with
  | zero => exact ⟨(curves, 0), rfl, rfl, rfl⟩
  | succ k ih =>
      obtain ⟨st, hst, hidx, hlen⟩ := ih
      have hlt : st.2 < st.1.length := by omega
      refine ⟨(st.1 ++ [processedCurve (st.1.get ⟨st.2, hlt⟩)], st.2 + 1),
        ?_, by omega, by simp [hlen]; omega⟩
      rw [show k + 1 = k.succ from rfl, parseCurvesState, hst]
      simp [parseCurvesStep, hlt]

/-- C10: the curve-parsing loop of `MotionParser.parse_motion_file`
terminates if and only if the document's `Curves` list is empty (or
absent, in which case `data.get("Curves", [])` is also the empty list):
`Motion.from_dict` aliases `motion.curves` to the document's own list, and
each iteration appends one element to that same list, so on a nonempty
list the index never exhausts it and the parse never returns. -/
theorem C10_parse_loop_terminates_iff (curves : List CurveDoc) :
    (∃ k, parseCurvesState curves k = none) ↔ curves = [] := by
  constructor
  · intro ⟨k, hk⟩
    by_contra hne
    obtain ⟨st, hst, -, -⟩ := parseCurvesState_runs_forever curves hne k
    rw [hst] at hk
    exact Option.noConfusion hk
  · intro he
    subst he
    exact ⟨1, rfl⟩

/-! ### MotionManager -/

/-- The `self.current_motion` dict of `MotionManager`. -/
structure CurrentMotion where
  name : String
  time : ℚ
  loop : Bool
  fade_in_time : ℚ
deriving DecidableEq

/-- The `self.fade_out_motion` dict of `MotionManager`.  Its `"motion"`
entry holds whatever `self.motions` holds — a `Motion` object (the
source's own comment at line 237 flags the object/dict confusion). -/
structure FadeOutMotion where
  motion : Motion
  start_time : ℚ
  fade_out_time : ℚ
deriving DecidableEq

/-- `MotionManager` state.  `motions` holds the `Motion` objects stored by
`load_motion` (line 195). -/
structure MotionManager where
  parameter_manager : ParameterManager ℚ
  current_motion : Option CurrentMotion
  fade_out_motion : Option FadeOutMotion
  current_time : ℚ
  motions : List (String × Motion)
deriving DecidableEq

namespace MotionManager

/-- `MotionManager.__init__`. -/
def init (pm : ParameterManager ℚ) : MotionManager :=
  ⟨pm, none, none, 0, []⟩

/-- `MotionManager.play_motion`.  `none` models an escaping exception (the
`self.motions[...]` lookup for the outgoing motion would raise `KeyError`
if its name were missing, which cannot happen in states produced through
this interface). -/
def play_motion (mm : MotionManager) (motion_name : String)
    (loop : Option Bool) (fade_in_time : Option ℚ) :
    Option (Bool × MotionManager) :=
  match mm.motions.lookup motion_name with
  | none => some (false, mm)
  | some motion =>
      let loop := loop.getD motion.loop
      let fade_in_time := fade_in_time.getD motion.fade_in_time
      match mm.current_motion with
      | none =>
          some (true,
            { mm with
              current_motion := some ⟨motion_name, 0, loop, fade_in_time⟩ })
      | some cur =>
          match mm.motions.lookup cur.name with
          | none => none
          | some current_motion =>
              some (true,
                { mm with
                  fade_out_motion := some
                    ⟨current_motion, mm.current_time - cur.time,
                     current_motion.fade_out_time⟩,
                  current_motion :=
                    some ⟨motion_name, 0, loop, fade_in_time⟩ })

/-- `MotionManager.update`.  After advancing the clocks, line 277 reads
`motion_obj.get("Meta", {})` — a dict access on the `Motion` object stored
by `load_motion`.  The `Motion` class defines no `get` method, so this
raises `AttributeError` (modelled as `none`) before any parameter is
computed or written; the weighted-blend accumulation below it, and the
fade-out accumulation that sits after the parameter write at line 334, are
unreachable. -/
def update (mm : MotionManager) (delta_time : ℚ) : Option MotionManager :=
  match mm.current_motion with
  | none => some mm
  | some cur =>
      let current_time := mm.current_time + delta_time
      let cur := { cur with time := cur.time + delta_time }
      match mm.motions.lookup cur.name with
      | none =>
          some { mm with current_time := current_time, current_motion := none }
      | some _ => none

end MotionManager

/-! ### Claim C8 -/

/-- C8: playing a motion name that is not among the loaded motions returns
`False`, raises nothing, and leaves the entire playback state (current
motion, fade-out state, current time — indeed the whole manager)
unchanged. -/
theorem C8_play_unknown_motion (mm : MotionManager) (motion_name : String)
    (loop : Option Bool) (fade_in_time : Option ℚ)
    (h : mm.motions.lookup motion_name = none) :
    mm.play_motion motion_name loop fade_in_time = some (false, mm) := by
  unfold MotionManager.play_motion
  rw [h]

/-- Witness for C8 at a concrete input: `playMotion("idle")` on a manager
with no motions loaded. -/
theorem C8_play_unknown_motion_witness :
    ((MotionManager.init ParameterManager.init).motions.lookup "idle"
      = none) ∧
    (MotionManager.init ParameterManager.init).play_motion "idle" none none
      = some (false, MotionManager.init ParameterManager.init) :=
  ⟨rfl, C8_play_unknown_motion (MotionManager.init ParameterManager.init)
    "idle" none none rfl⟩

/-! ### Claim C1 -/

/-- C1: the claim says `update(dt)` writes the weighted blend
`sum(value*weight)/sum(weight)` of the active and fading-out motions into
the parameter store.  It cannot: whenever a current motion exists and its
name is among the loaded motions (the state every successful `play_motion`
leaves behind), `update` performs dict-style access on the stored `Motion`
object and raises `AttributeError` before any parameter is computed or
written — the blend (and the 0.5/0.5 cross-fade of the scenario) never
reaches the store. -/
theorem C1_update_raises_before_blend (mm : MotionManager) (dt : ℚ)
    (c : CurrentMotion) (m : Motion)
    (h1 : mm.current_motion = some c)
    (h2 : mm.motions.lookup c.name = some m) :
    mm.update dt = none := by
  unfold MotionManager.update
  rw [h1]
  dsimp only
  rw [h2]

/-- Witness for C1 at the claim's own scenario shape: motion `"B"` active
(fade-in 1s) with motion `"A"` fading out (fade-out 1s), evaluated at
`dt = 0.5`; `update` raises instead of writing the blend. -/
theorem C1_update_raises_before_blend_witness :
    let motionA : Motion := ⟨"A", 3, 30, true, 1, 1, []⟩
    let motionB : Motion := ⟨"B", 3, 30, true, 1, 1, []⟩
    let mm : MotionManager :=
      ⟨ParameterManager.init, some ⟨"B", 0, true, 1⟩,
       some ⟨motionA, 0, 1⟩, 0, [("A", motionA), ("B", motionB)]⟩
    mm.update (1 / 2) = none := by
  intro motionA motionB mm
  exact C1_update_raises_before_blend mm (1 / 2) ⟨"B", 0, true, 1⟩ motionB
    rfl rfl

/-! ## Renderer (`src/renderer.py`)

Only the part bookkeeping and draw-call emission order are modelled; GL
calls, alpha/deformer computation and mesh upload do not influence which
parts draw or in which order.  A part emits a draw call iff it is visible
and carries a texture (`load_model` always attaches a mesh).  The draw
list records part ids in emission order. -/

/-- The fields of a `self.parts` entry that determine draw emission and
order: `id`, `visible`, whether `"texture" in part` (texture load
succeeded), and `depth`. -/
structure Part where
  id : String
  visible : Bool
  texture : Bool
  depth : ℤ
deriving DecidableEq

/-- Renderer state: the part dict (insertion-ordered, keyed by part id)
and the lazily created `_sorted_parts` attribute (`none` = attribute not
yet set).  The debug part installed by `initialize` is irrelevant here
because `load_model` resets `self.parts` and `_sorted_parts` is only ever
created by `render`. -/
structure Renderer where
  parts : List (String × Part)
  sortedParts : Option (List Part)
deriving DecidableEq

/-- The stable insertion of Python's `sorted(..., key=depth)`: a part goes
in front of the first resident part of greater-or-equal depth, so equal
depths keep their original order. -/
def insertByDepth (p : Part) : List Part → List Part
  | [] => [p]
  | q :: rest =>
      if p.depth ≤ q.depth then p :: q :: rest else q :: insertByDepth p rest

/-- `sorted(self.parts.values(), key=lambda p: p.get("depth", 0))`:
Python's sort is stable and ascending; we embed it as the stable insertion
sort, which has exactly that specification. -/
def sortedByDepth (l : List Part) : List Part := l.foldr insertByDepth []

namespace Renderer

/-- A renderer before any model is loaded or rendered. -/
def initState : Renderer := ⟨[], none⟩

/-- `Renderer.load_model`: reset `self.parts`, then insert every part with
a non-empty id, keyed by id.  (`_sorted_parts` is not touched.)  The input
is the list of part values as built by the body of the loop — id, `Depth`
(default 0), visibility, and whether the texture load at the I/O boundary
succeeded (`"texture" in part`). -/
def load_model (r : Renderer) (parts_data : List Part) : Renderer :=
  { r with
    parts := parts_data.foldl
      (fun acc p => if p.id = "" then acc else dictSet acc p.id p) [] }

/-- The draw calls emitted by the part loop, in order: invisible parts are
skipped, and `glDrawElements` runs only under `if "texture" in part`. -/
def drawsOf (sorted : List Part) : List String :=
  sorted.filterMap (fun p =>
    if p.visible && p.texture then some p.id else none)

/-- `Renderer.render` (for an initialized renderer): early-out on an empty
part dict; re-sort only when `_sorted_parts` does not exist yet or its
length differs from the current part count; then emit the draw calls from
the (possibly stale) sorted list. -/
def render (r : Renderer) : List String × Renderer :=
  if r.parts.isEmpty then ([], r)
  else
    let values := r.parts.map Prod.snd
    let sorted :=
      match r.sortedParts with
      | none => sortedByDepth values
      | some sp =>
          if sp.length ≠ r.parts.length then sortedByDepth values else sp
    (drawsOf sorted, { r with sortedParts := some sorted })

end Renderer

theorem insertByDepth_perm (p : Part) (l : List Part) :
    List.Perm (insertByDepth p l) (p :: l) := by
  induction l with
  | nil => exact List.Perm.refl _
  | cons q rest ih =>
      unfold insertByDepth
      split
      · exact List.Perm.refl _
      · exact (ih.cons q).trans (List.Perm.swap p q rest)

theorem sortedByDepth_perm (l : List Part) :
    List.Perm (sortedByDepth l) l := by
  induction l with
  | nil => exact List.Perm.refl _
  | cons p rest ih =>
      exact (insertByDepth_perm p (sortedByDepth rest)).trans (ih.cons p)

theorem insertByDepth_sorted (p : Part) (l : List Part)
    (h : l.Pairwise (fun a b => a.depth ≤ b.depth)) :
    (insertByDepth p l).Pairwise (fun a b => a.depth ≤ b.depth) := by
  induction l with
  | nil => simp [insertByDepth]
  | cons q rest ih =>
      rw [List.pairwise_cons] at h
      unfold insertByDepth
      split
      · rename_i hpq
        rw [List.pairwise_cons]
        refine ⟨?_, List.pairwise_cons.mpr h⟩
        intro x hx
        rcases List.mem_cons.mp hx with hx | hx
        · rw [hx]
          exact hpq
        · exact le_trans hpq (h.1 x hx)
      · rename_i hpq
        rw [List.pairwise_cons]
        refine ⟨?_, ih h.2⟩
        intro x hx
        have hx' := (insertByDepth_perm p rest).mem_iff.mp hx
        rcases List.mem_cons.mp hx' with hx2 | hx2
        · rw [hx2]
          exact le_of_lt (lt_of_not_le hpq)
        · exact h.1 x hx2

theorem sortedByDepth_sorted (l : List Part) :
    (sortedByDepth l).Pairwise (fun a b => a.depth ≤ b.depth) := by
  induction l with
  | nil => exact List.Pairwise.nil
  | cons p rest ih => exact insertByDepth_sorted p (sortedByDepth rest) ih

theorem insertByDepth_filter (p : Part) (l : List Part) (d : ℤ) :
    (insertByDepth p l).filter (fun q => q.depth = d) =
      if p.depth = d then p :: l.filter (fun q => q.depth = d)
      else l.filter (fun q => q.depth = d) := by
  induction l with
  | nil =>
      by_cases hp : p.depth = d <;> simp [insertByDepth, hp]
  | cons q rest ih =>
      unfold insertByDepth
      split
      · rename_i hpq
        by_cases hp : p.depth = d <;> simp [List.filter_cons, hp]
      · rename_i hpq
        by_cases hp : p.depth = d
        · have hq : ¬ q.depth = d := by
            intro he
            rw [← hp] at he
            exact hpq (le_of_eq he.symm)
          simp [List.filter_cons, hp, hq, ih]
        · simp [List.filter_cons, hp, ih]

/-- Stability: within each depth class, the sorted order is the original
declaration order. -/
theorem sortedByDepth_stable (l : List Part) (d : ℤ) :
    (sortedByDepth l).filter (fun q => q.depth = d) =
      l.filter (fun q => q.depth = d) := by
  induction l with
  | nil => rfl
  | cons p rest ih =>
      show (insertByDepth p (sortedByDepth rest)).filter _ = _
      rw [insertByDepth_filter]
      by_cases hp : p.depth = d <;> simp [List.filter_cons, hp, ih]

/-! ### Claim C9 -/

/-- An opaque, textured, visible part at a given depth. -/
def mkPart (pid : String) (depth : ℤ) : Part := ⟨pid, true, true, depth⟩

/-- C9 counterexample: the claim says `render` issues draw calls for the
visible parts (of the current model) and that the sorted order is
recomputed when the part set changes.  But the re-sort triggers only on a
*count* change: replacing the loaded model by a different one with the
same number of parts keeps the stale sorted list, and `render` then draws
the old part `"a"` instead of the current part `"b"`. -/
theorem C9_counterexample :
    ((Renderer.initState.load_model [mkPart "a" 0]).render.2.load_model
      [mkPart "b" 0]).render.1 = ["a"] ∧
    ((Renderer.initState.load_model [mkPart "a" 0]).render.2.load_model
      [mkPart "b" 0]).parts = [("b", mkPart "b" 0)] ∧
    (mkPart "b" 0).visible = true ∧ (mkPart "b" 0).texture = true ∧
    "a" ≠ "b" :=
  ⟨rfl, rfl, rfl, rfl, by decide⟩

/-- C9 amended: `render` draws, in order, the visible textured parts of
the sorted list current in `_sorted_parts` — ascending by depth with ties
in original declaration order (the sort is stable) — but that list is
recomputed only when it does not exist yet or when the part *count*
changed, not on every part-set change; with an equal-size part-set change
the stale order (and stale parts) are reused.  The claim's two-part
scenario on a fresh renderer does hold: both parts draw, depth 1 after
depth 0. -/
theorem C9_render_depth_order_amended :
    ((Renderer.initState.load_model
      [mkPart "p0" 0, mkPart "p1" 1]).render.1 = ["p0", "p1"]) ∧
    (∀ l : List Part,
      (sortedByDepth l).Pairwise (fun a b => a.depth ≤ b.depth)) ∧
    (∀ (l : List Part) (d : ℤ),
      (sortedByDepth l).filter (fun q => q.depth = d) =
        l.filter (fun q => q.depth = d)) ∧
    (∀ l : List Part, List.Perm (sortedByDepth l) l) ∧
    (∀ (r : Renderer) (sp : List Part), r.sortedParts = some sp →
      sp.length = r.parts.length →
      r.render = (Renderer.drawsOf sp, { r with sortedParts := some sp })) ∧
    (∀ r : Renderer, r.sortedParts = none →
      r.render =
        if r.parts.isEmpty then ([], r)
        else
          (Renderer.drawsOf (sortedByDepth (r.parts.map Prod.snd)),
           { r with
             sortedParts := some (sortedByDepth (r.parts.map Prod.snd)) })) := by
  refine ⟨rfl, sortedByDepth_sorted, sortedByDepth_stable, sortedByDepth_perm,
    ?_, ?_⟩
  · intro r sp h1 h2
    by_cases he : r.parts.isEmpty
    · rw [List.isEmpty_iff] at he
      have hsp : sp = [] := by
        rw [← List.length_eq_zero, h2, he]
        rfl
      subst hsp
      obtain ⟨parts, sorted⟩ := r
      simp only at h1 he
      subst h1
      subst he
      rfl
    · simp [Renderer.render, he, h1, h2]
  · intro r h1
    by_cases he : r.parts.isEmpty
    · simp [Renderer.render, he]
    · simp [Renderer.render, he, h1]

/-- Witness for C9 (amended) at a concrete input: a renderer whose cached
order has the same length as its part dict reuses the cache verbatim. -/
theorem C9_render_depth_order_amended_witness :
    (Renderer.mk [("a", mkPart "a" 0)] (some [mkPart "a" 0])).render =
      (Renderer.drawsOf [mkPart "a" 0],
       Renderer.mk [("a", mkPart "a" 0)] (some [mkPart "a" 0])) :=
  (C9_render_depth_order_amended.2.2.2.2.1
    (Renderer.mk [("a", mkPart "a" 0)] (some [mkPart "a" 0]))
    [mkPart "a" 0] rfl rfl)

end AiVoice
